import Mathlib

/-!
# Finance tracker: the transaction ledger of `src/pages/Index.jsx`

A shallow embedding of the `Index` component: its state (the `useState` cells and the
modal/notification hooks), its event handlers (`handleEdit`, `handleDelete`,
`handleFilterChange`, `handleSubmit`) as state transformers, and its two derived values
(`filteredTransactions`, `totalBalance`).

Modelling conventions.
* A record's `id` is a mathematical integer (`Int`).
* A JavaScript number is an IEEE 754 double.  A finite double is given by its value, a rational,
  so `amount : ℚ` is the value of the double `parseFloat(formData.get("amount"))`; a number that
  an operation may make non-finite is an `Option ℚ`, `none` standing for `Infinity`, `-Infinity`
  and `NaN`.  The operators `+` and `-` round the exact result to the nearest double, ties to
  even (`roundToDouble`).
* `date`, `type`, `category` and the four filter fields are strings, as in the source; a
  filter field is "specified" when the string is truthy, that is, non-empty.
* `new Date(s)` is a platform function.  It is a parameter `parseDate : String → Option Int`
  giving the time value of the constructed date, `none` being the Invalid Date whose time
  value is `NaN`.
* A React state setter called in a handler fixes the state for the next render; every
  handler calls each setter at most once, so a handler is a function `State → State`.
-/

namespace FinanceTracker

/-! ## Data model -/

/-- One ledger record, the object shape used throughout `Index.jsx`. -/
structure Transaction where
  id : Int
  date : String
  amount : ℚ
  type : String
  category : String
deriving DecidableEq

/-- The values `handleSubmit` reads from the submitted form: `formData.get("date")`,
`parseFloat(formData.get("amount"))`, `formData.get("type")`, `formData.get("category")`. -/
structure FormFields where
  date : String
  amount : ℚ
  type : String
  category : String
deriving DecidableEq

/-- The filter specification held in the `filters` state cell. -/
structure Filters where
  type : String
  category : String
  dateFrom : String
  dateTo : String
deriving DecidableEq

/-- The argument object of a `toast(...)` call. -/
structure Toast where
  title : String
  status : String
  duration : Nat
  isClosable : Bool
deriving DecidableEq

/-- The state of the `Index` component: the three `useState` cells, the `isOpen` flag of
`useDisclosure`, and the notifications raised so far (oldest first). -/
structure State where
  transactions : List Transaction
  editingTransaction : Option Transaction
  filters : Filters
  isOpen : Bool
  toasts : List Toast
deriving DecidableEq

/-- The seed collection `initialTransactions` (source lines 5-20). -/
def initialTransactions : List Transaction :=
  [ { id := 1, date := "2023-01-01", amount := 1000, type := "income", category := "salary" },
    { id := 2, date := "2023-01-02", amount := 50, type := "expense", category := "groceries" } ]

/-- The constant `categories` (source line 22). -/
def categories : List String :=
  ["groceries", "bills", "salary", "entertainment", "healthcare", "other"]

/-- The filter specification the component starts with (source line 27): no constraint. -/
def noFilters : Filters :=
  { type := "", category := "", dateFrom := "", dateTo := "" }

/-- The component state at first render (source lines 25-28). -/
def initialState : State :=
  { transactions := initialTransactions, editingTransaction := none, filters := noFilters,
    isOpen := false, toasts := [] }

/-! ## Hooks -/

/-- The `onOpen` callback of `useDisclosure`. -/
def onOpen (st : State) : State := { st with isOpen := true }

/-- The `onClose` callback of `useDisclosure`. -/
def onClose (st : State) : State := { st with isOpen := false }

/-- The `toast` callback of `useToast`: the notification is recorded after the earlier ones. -/
def toast (st : State) (t : Toast) : State := { st with toasts := st.toasts ++ [t] }

/-- Truthiness of a JavaScript string: every string but the empty one. -/
def truthy (s : String) : Bool := s != ""

/-- The JavaScript comparison `a >= b` of two `Date` objects, on their time values; it is
false as soon as one of them is the Invalid Date. -/
def dateGe : Option Int → Option Int → Bool
  | some a, some b => decide (b ≤ a)
  | _, _ => false

/-- The JavaScript comparison `a <= b` of two `Date` objects, on their time values; it is
false as soon as one of them is the Invalid Date. -/
def dateLe : Option Int → Option Int → Bool
  | some a, some b => decide (a ≤ b)
  | _, _ => false

/-- The call `Math.max(...xs, z)`: the greatest of the listed numbers and `z`. -/
def mathMax (xs : List Int) (z : Int) : Int := xs.foldr max z

/-- Rounding of a rational to the nearest integer, ties to the even one. -/
def roundHalfEven (x : ℚ) : Int :=
  if x - ⌊x⌋ < 1 / 2 then ⌊x⌋
  else if 1 / 2 < x - ⌊x⌋ then ⌊x⌋ + 1
  else if ⌊x⌋ % 2 = 0 then ⌊x⌋ else ⌊x⌋ + 1

/-- The exponent of the unit in the last place of the doubles around `x ≠ 0`: 52 below the
binary exponent of `x` (53 significant bits), and never below `-1074`, the exponent of the
smallest subnormal. -/
def ulpExponent (x : ℚ) : Int := max (Int.log 2 |x| - 52) (-1074)

/-- Rounding of an exact result to a double, the IEEE 754 round-to-nearest, ties-to-even of
binary64: the result is the nearest multiple of the unit in the last place, and `none`
(an infinity) when that is `2 ^ 1024` or more in magnitude. -/
def roundToDouble (q : ℚ) : Option ℚ :=
  if q = 0 then some 0
  else if |(roundHalfEven (q / 2 ^ ulpExponent q) : ℚ) * 2 ^ ulpExponent q| < 2 ^ (1024 : ℕ) then
    some ((roundHalfEven (q / 2 ^ ulpExponent q) : ℚ) * 2 ^ ulpExponent q)
  else none

/-- The JavaScript operator `+` on numbers: the exact sum, rounded; a non-finite operand gives a
non-finite result. -/
def jsAdd : Option ℚ → Option ℚ → Option ℚ
  | some x, some y => roundToDouble (x + y)
  | _, _ => none

/-- The JavaScript operator `-` on numbers: the exact difference, rounded; a non-finite operand
gives a non-finite result. -/
def jsSub : Option ℚ → Option ℚ → Option ℚ
  | some x, some y => roundToDouble (x - y)
  | _, _ => none

/-! ## Handlers (source lines 31-83) -/

/-- The handler `handleEdit` (source lines 31-34). -/
def handleEdit (st : State) (transaction : Option Transaction) : State :=
  onOpen { st with editingTransaction := transaction }

/-- The handler `handleDelete` (source lines 36-44). -/
def handleDelete (st : State) (transactionId : Int) : State :=
  toast
    { st with
      transactions := st.transactions.filter (fun transaction => transaction.id != transactionId) }
    { title := "Transaction deleted.", status := "success", duration := 2000, isClosable := true }

/-- The handler `handleFilterChange` (source lines 46-48); `name` and `value` are
`e.target.name` and `e.target.value`.  A name other than the four filter fields adds a property
that nothing reads. -/
def handleFilterChange (st : State) (name value : String) : State :=
  { st with
    filters :=
      if name = "type" then { st.filters with type := value }
      else if name = "category" then { st.filters with category := value }
      else if name = "dateFrom" then { st.filters with dateFrom := value }
      else if name = "dateTo" then { st.filters with dateTo := value }
      else st.filters }

/-- The derived value `filteredTransactions` (source lines 50-52). -/
def filteredTransactions (parseDate : String → Option Int) (transactions : List Transaction)
    (filters : Filters) : List Transaction :=
  transactions.filter (fun transaction =>
    (if truthy filters.type then transaction.type == filters.type else true)
    && (if truthy filters.category then transaction.category == filters.category else true)
    && (if truthy filters.dateFrom then
          dateGe (parseDate transaction.date) (parseDate filters.dateFrom) else true)
    && (if truthy filters.dateTo then
          dateLe (parseDate transaction.date) (parseDate filters.dateTo) else true))

/-- The derived value `totalBalance` (source lines 54-56). -/
def totalBalance (transactions : List Transaction) : Option ℚ :=
  transactions.foldl
    (fun acc transaction =>
      if transaction.type == "income" then jsAdd acc (some transaction.amount)
      else jsSub acc (some transaction.amount))
    (some 0)

/-- The constant `newTransaction` built by `handleSubmit` (source lines 61-67). -/
def newTransaction (transactions : List Transaction) (editingTransaction : Option Transaction)
    (formData : FormFields) : Transaction :=
  { id :=
      match editingTransaction with
      | some e => e.id
      | none => mathMax (transactions.map (fun t => t.id)) 0 + 1
    date := formData.date
    amount := formData.amount
    type := formData.type
    category := formData.category }

/-- The handler `handleSubmit` (source lines 58-83). -/
def handleSubmit (st : State) (formData : FormFields) : State :=
  let newT := newTransaction st.transactions st.editingTransaction formData
  let st1 : State :=
    match st.editingTransaction with
    | some e =>
      { st with
        transactions :=
          st.transactions.map (fun transaction => if transaction.id == e.id then newT else transaction)
        editingTransaction := none }
    | none => { st with transactions := st.transactions ++ [newT] }
  toast (onClose st1)
    { title := "Transaction " ++ (if st.editingTransaction.isSome then "updated" else "added") ++ "."
      status := "success", duration := 2000, isClosable := true }

/-! ## The component as a transition system -/

/-- The user events the component reacts to, one per handler, with the data the handler
receives. -/
inductive Event where
  | edit (transaction : Option Transaction)
  | delete (transactionId : Int)
  | filterChange (name value : String)
  | submit (formData : FormFields)
  | close

/-- One event, dispatched to its handler. -/
def step (st : State) : Event → State
  | .edit transaction => handleEdit st transaction
  | .delete transactionId => handleDelete st transactionId
  | .filterChange name value => handleFilterChange st name value
  | .submit formData => handleSubmit st formData
  | .close => onClose st

/-- A finite sequence of events, handled in order. -/
def run (st : State) (events : List Event) : State := events.foldl step st

/-- The status of the most recent notification: the acknowledgement of the last mutation. -/
def lastStatus (st : State) : Option String := st.toasts.getLast?.map (fun t => t.status)

/-- No two records of the collection have the same id. -/
def UniqueIds (transactions : List Transaction) : Prop :=
  transactions.Pairwise (fun a b => a.id ≠ b.id)

/-- The id `m` is the maximum id of the collection: some record has it and none exceeds it. -/
def IsMaxId (transactions : List Transaction) (m : Int) : Prop :=
  (∃ t ∈ transactions, t.id = m) ∧ ∀ t ∈ transactions, t.id ≤ m

/-- The record `r` carries exactly the submitted fields. -/
def HasFields (r : Transaction) (f : FormFields) : Prop :=
  r.date = f.date ∧ r.amount = f.amount ∧ r.type = f.type ∧ r.category = f.category

/-- The result of a create as the specification words it: the old collection followed by one
record carrying the submitted fields, whose id is one greater than the maximum id of the old
collection, or `1` if the old collection is empty. -/
def CreateAsSpecified (old : List Transaction) (f : FormFields) (new : List Transaction) : Prop :=
  ∃ r, new = old ++ [r] ∧ HasFields r f ∧ (old = [] → r.id = 1)
    ∧ ∀ m, IsMaxId old m → r.id = m + 1

/-- A mutation failed, as far as its caller can observe.  The handlers hold no `throw` and
return normally on every input, which the embedding records by their being total functions; the
only acknowledgement of a mutation is the notification it raises, so a failed mutation is one
whose acknowledgement is not a success. -/
def Failed (after : State) : Prop := lastStatus after ≠ some "success"

/-- The date `date` is on or after the date `bound`: both are valid dates and the time value
of `bound` is at most that of `date`. -/
def OnOrAfter (parseDate : String → Option Int) (date bound : String) : Prop :=
  ∃ a b, parseDate date = some a ∧ parseDate bound = some b ∧ b ≤ a

/-- The date `date` is on or before the date `bound`: both are valid dates and the time value
of `date` is at most that of `bound`. -/
def OnOrBefore (parseDate : String → Option Int) (date bound : String) : Prop :=
  ∃ a b, parseDate date = some a ∧ parseDate bound = some b ∧ a ≤ b

/-- The record satisfies every specified constraint of the filter specification at once, in the
specification's words; a field of the specification is specified when it is not empty. -/
def Satisfies (parseDate : String → Option Int) (filters : Filters) (t : Transaction) : Prop :=
  (filters.type ≠ "" → t.type = filters.type)
  ∧ (filters.category ≠ "" → t.category = filters.category)
  ∧ (filters.dateFrom ≠ "" → OnOrAfter parseDate t.date filters.dateFrom)
  ∧ (filters.dateTo ≠ "" → OnOrBefore parseDate t.date filters.dateTo)

/-- The balance in the specification's words, computed with the program's numbers: the left
fold from 0 that adds the amount of each income record and subtracts the amount of each expense
record. -/
def balanceAsSpecified (transactions : List Transaction) : Option ℚ :=
  transactions.foldl
    (fun acc t =>
      if t.type = "income" then jsAdd acc (some t.amount)
      else if t.type = "expense" then jsSub acc (some t.amount)
      else acc)
    (some 0)

/-- The rational `x` is the value of a double: rounding leaves it as it is. -/
def IsDouble (x : ℚ) : Prop := roundToDouble x = some x

/-- The sum of the amounts of all income records. -/
def incomeTotal (transactions : List Transaction) : ℚ :=
  ((transactions.filter (fun t => t.type == "income")).map (fun t => t.amount)).sum

/-- The sum of the amounts of all expense records. -/
def expenseTotal (transactions : List Transaction) : ℚ :=
  ((transactions.filter (fun t => t.type == "expense")).map (fun t => t.amount)).sum

/-- The exact signed sum of the records: the sum of the amounts of all income records minus the
sum of the amounts of all expense records. -/
def exactBalance (transactions : List Transaction) : ℚ :=
  incomeTotal transactions - expenseTotal transactions

/-- Three records a user can enter, on which a step of the balance rounds: income
9007199254740992 (that is `2 ^ 53`), income 1, expense 9007199254740992. -/
def roundingExample : List Transaction :=
  [ { id := 1, date := "2023-01-01", amount := 9007199254740992, type := "income",
      category := "salary" },
    { id := 2, date := "2023-01-02", amount := 1, type := "income", category := "other" },
    { id := 3, date := "2023-01-03", amount := 9007199254740992, type := "expense",
      category := "bills" } ]

/-! ## Auxiliary facts -/

theorem mathMax_ge_base (xs : List Int) (z : Int) : z ≤ mathMax xs z := by
  induction xs with
  | nil => simp [mathMax]
  | cons x xs ih =>
    have h : mathMax (x :: xs) z = max x (mathMax xs z) := rfl
    rw [h]
    exact le_max_of_le_right ih

theorem le_mathMax (xs : List Int) (z : Int) : ∀ x ∈ xs, x ≤ mathMax xs z := by
  induction xs with
  | nil => intro x hx; cases hx
  | cons y ys ih =>
    intro x hx
    have h : mathMax (y :: ys) z = max y (mathMax ys z) := rfl
    rw [h]
    rcases List.mem_cons.mp hx with rfl | hmem
    · exact le_max_left _ _
    · exact le_max_of_le_right (ih x hmem)

theorem mathMax_eq_base_or_mem (xs : List Int) (z : Int) :
    mathMax xs z = z ∨ mathMax xs z ∈ xs := by
  induction xs with
  | nil => left; rfl
  | cons y ys ih =>
    have h : mathMax (y :: ys) z = max y (mathMax ys z) := rfl
    rw [h]
    rcases max_choice y (mathMax ys z) with hy | hr
    · right; rw [hy]; exact List.mem_cons_self _ _
    · rw [hr]
      rcases ih with h0 | hm
      · left; exact h0
      · right; exact List.mem_cons_of_mem _ hm

theorem id_le_mathMax (transactions : List Transaction) (t : Transaction)
    (ht : t ∈ transactions) : t.id ≤ mathMax (transactions.map (fun t => t.id)) 0 :=
  le_mathMax _ _ _ (List.mem_map_of_mem (fun t => t.id) ht)

theorem id_lt_newId (transactions : List Transaction) (f : FormFields) (t : Transaction)
    (ht : t ∈ transactions) : t.id < (newTransaction transactions none f).id := by
  have h := id_le_mathMax transactions t ht
  show t.id < mathMax (transactions.map (fun t => t.id)) 0 + 1
  omega

theorem handleSubmit_transactions_none (st : State) (f : FormFields)
    (h : st.editingTransaction = none) :
    (handleSubmit st f).transactions
      = st.transactions ++ [newTransaction st.transactions none f] := by
  simp [handleSubmit, h, toast, onClose]

theorem handleSubmit_transactions_some (st : State) (e : Transaction) (f : FormFields)
    (h : st.editingTransaction = some e) :
    (handleSubmit st f).transactions
      = st.transactions.map
          (fun t => if t.id = e.id then newTransaction st.transactions (some e) f else t) := by
  simp [handleSubmit, h, toast, onClose]

theorem handleSubmit_lastStatus (st : State) (f : FormFields) :
    lastStatus (handleSubmit st f) = some "success" := by
  simp [handleSubmit, toast, lastStatus]

theorem handleDelete_transactions (st : State) (i : Int) :
    (handleDelete st i).transactions = st.transactions.filter (fun t => t.id != i) := rfl

theorem filter_ne_of_lt (transactions : List Transaction) (i : Int)
    (h : ∀ t ∈ transactions, t.id < i) :
    transactions.filter (fun t => t.id != i) = transactions := by
  apply List.filter_eq_self.mpr
  intro t ht
  have := h t ht
  simp only [bne_iff_ne, ne_eq]
  omega

theorem newTransaction_hasFields (transactions : List Transaction) (e : Option Transaction)
    (f : FormFields) : HasFields (newTransaction transactions e f) f :=
  ⟨rfl, rfl, rfl, rfl⟩

theorem uniqueIds_append_new (transactions : List Transaction) (f : FormFields)
    (h : UniqueIds transactions) :
    UniqueIds (transactions ++ [newTransaction transactions none f]) := by
  unfold UniqueIds at *
  rw [List.pairwise_append]
  refine ⟨h, List.pairwise_singleton _ _, ?_⟩
  intro a ha b hb
  rw [List.mem_singleton] at hb
  subst hb
  exact ne_of_lt (id_lt_newId transactions f a ha)

theorem uniqueIds_map_replace (transactions : List Transaction) (e : Transaction)
    (f : FormFields) (h : UniqueIds transactions) :
    UniqueIds (transactions.map
      (fun t => if t.id = e.id then newTransaction transactions (some e) f else t)) := by
  unfold UniqueIds at *
  rw [List.pairwise_map]
  have key : ∀ t : Transaction,
      (if t.id = e.id then newTransaction transactions (some e) f else t).id = t.id := by
    intro t
    by_cases ht : t.id = e.id
    · rw [if_pos ht]; exact ht.symm
    · rw [if_neg ht]
  refine h.imp ?_
  intro a b hab
  rw [key a, key b]
  exact hab

theorem uniqueIds_step (st : State) (ev : Event) (h : UniqueIds st.transactions) :
    UniqueIds (step st ev).transactions := by
  cases ev with
  | edit transaction => exact h
  | delete transactionId =>
    show UniqueIds (handleDelete st transactionId).transactions
    rw [handleDelete_transactions]
    exact List.Pairwise.filter _ h
  | filterChange name value => exact h
  | submit formData =>
    show UniqueIds (handleSubmit st formData).transactions
    cases hed : st.editingTransaction with
    | none =>
      rw [handleSubmit_transactions_none st formData hed]
      exact uniqueIds_append_new _ _ h
    | some e =>
      rw [handleSubmit_transactions_some st e formData hed]
      exact uniqueIds_map_replace _ _ _ h
  | close => exact h

theorem uniqueIds_run (events : List Event) :
    ∀ st : State, UniqueIds st.transactions → UniqueIds (run st events).transactions := by
  induction events with
  | nil => intro st h; exact h
  | cons ev rest ih =>
    intro st h
    show UniqueIds (run (step st ev) rest).transactions
    exact ih (step st ev) (uniqueIds_step st ev h)

theorem handleDelete_editingTransaction (st : State) (i : Int) :
    (handleDelete st i).editingTransaction = st.editingTransaction := rfl

theorem handleSubmit_editingTransaction (st : State) (f : FormFields) :
    (handleSubmit st f).editingTransaction = none := by
  cases hed : st.editingTransaction <;> simp [handleSubmit, hed, toast, onClose]

theorem handleDelete_lastStatus (st : State) (i : Int) :
    lastStatus (handleDelete st i) = some "success" := by
  simp [handleDelete, toast, lastStatus]

theorem newTransaction_seed_id (f : FormFields) :
    (newTransaction initialTransactions none f).id = 3 := by
  simp [newTransaction, initialTransactions, mathMax]

theorem dateGe_iff (x y : Option Int) :
    dateGe x y = true ↔ ∃ a b, x = some a ∧ y = some b ∧ b ≤ a := by
  cases x <;> cases y <;> simp [dateGe]

theorem dateLe_iff (x y : Option Int) :
    dateLe x y = true ↔ ∃ a b, x = some a ∧ y = some b ∧ a ≤ b := by
  cases x <;> cases y <;> simp [dateLe]

theorem filterPredicate_iff (parseDate : String → Option Int) (filters : Filters)
    (t : Transaction) :
    ((if truthy filters.type then t.type == filters.type else true)
      && (if truthy filters.category then t.category == filters.category else true)
      && (if truthy filters.dateFrom then
            dateGe (parseDate t.date) (parseDate filters.dateFrom) else true)
      && (if truthy filters.dateTo then
            dateLe (parseDate t.date) (parseDate filters.dateTo) else true)) = true
    ↔ Satisfies parseDate filters t := by
  unfold Satisfies OnOrAfter OnOrBefore
  rw [← dateGe_iff, ← dateLe_iff]
  by_cases h1 : filters.type = "" <;> by_cases h2 : filters.category = ""
    <;> by_cases h3 : filters.dateFrom = "" <;> by_cases h4 : filters.dateTo = ""
    <;> simp [truthy, h1, h2, h3, h4, and_assoc]

theorem incomeTotal_cons (t : Transaction) (ts : List Transaction) :
    incomeTotal (t :: ts) = (if t.type = "income" then t.amount else 0) + incomeTotal ts := by
  unfold incomeTotal
  by_cases h : t.type = "income"
  · simp [List.filter_cons, h]
  · simp [List.filter_cons, h]

theorem expenseTotal_cons (t : Transaction) (ts : List Transaction) :
    expenseTotal (t :: ts) = (if t.type = "expense" then t.amount else 0) + expenseTotal ts := by
  unfold expenseTotal
  by_cases h : t.type = "expense"
  · simp [List.filter_cons, h]
  · simp [List.filter_cons, h]

theorem int_log_two_eq (x : ℚ) (k : ℤ) (hx : 0 < x) (h1 : (2 : ℚ) ^ k ≤ x)
    (h2 : x < (2 : ℚ) ^ (k + 1)) : Int.log 2 x = k := by
  have hb : 1 < 2 := by norm_num
  have a1 : k ≤ Int.log 2 x := by
    apply (Int.zpow_le_iff_le_log hb hx).mp
    simpa using h1
  have a2 : Int.log 2 x < k + 1 := by
    apply (Int.lt_zpow_iff_log_lt hb hx).mp
    simpa using h2
  omega

theorem roundHalfEven_intCast (z : ℤ) : roundHalfEven (z : ℚ) = z := by
  simp [roundHalfEven]

theorem roundToDouble_zero : roundToDouble 0 = some 0 := by
  simp [roundToDouble]

theorem ulpExponent_le (m e : ℤ) (hm0 : m ≠ 0) (hm : |m| < 2 ^ 53) (he : -1074 ≤ e) :
    ulpExponent ((m : ℚ) * 2 ^ e) ≤ e := by
  unfold ulpExponent
  apply max_le _ he
  have hpos : (0 : ℚ) < |(m : ℚ) * 2 ^ e| := by
    apply abs_pos.mpr
    apply mul_ne_zero
    · exact_mod_cast hm0
    · exact zpow_ne_zero _ (by norm_num)
  have hlt : |(m : ℚ) * 2 ^ e| < (2 : ℚ) ^ (53 + e) := by
    rw [abs_mul, abs_of_pos (zpow_pos (by norm_num : (0 : ℚ) < 2) e), zpow_add₀ (by norm_num)]
    apply mul_lt_mul_of_pos_right _ (zpow_pos (by norm_num) e)
    have : ((|m| : ℤ) : ℚ) < ((2 ^ 53 : ℤ) : ℚ) := by exact_mod_cast hm
    rw [Int.cast_abs] at this
    norm_num at this ⊢
    exact this
  have := (Int.lt_zpow_iff_log_lt (by norm_num : 1 < 2) hpos).mp (by simpa using hlt)
  omega

/-- Every double, a number `m * 2 ^ e` with `|m| < 2 ^ 53` and `e ≥ -1074` below `2 ^ 1024`
in magnitude, is left as it is by rounding. -/
theorem roundToDouble_double (m e : ℤ) (hm : |m| < 2 ^ 53) (he : -1074 ≤ e)
    (hfin : |(m : ℚ) * 2 ^ e| < 2 ^ (1024 : ℕ)) :
    roundToDouble ((m : ℚ) * 2 ^ e) = some ((m : ℚ) * 2 ^ e) := by
  by_cases hm0 : m = 0
  · subst hm0; simp [roundToDouble]
  have hq : (m : ℚ) * 2 ^ e ≠ 0 :=
    mul_ne_zero (by exact_mod_cast hm0) (zpow_ne_zero _ (by norm_num))
  have hle := ulpExponent_le m e hm0 hm he
  obtain ⟨n, hn⟩ := Int.eq_ofNat_of_zero_le (sub_nonneg.mpr hle)
  have hdiv : (m : ℚ) * 2 ^ e / 2 ^ ulpExponent ((m : ℚ) * 2 ^ e) = ((m * 2 ^ n : ℤ) : ℚ) := by
    rw [mul_div_assoc, ← zpow_sub₀ (by norm_num : (2 : ℚ) ≠ 0), hn]
    push_cast
    rw [zpow_natCast]
  have hback : ((m * 2 ^ n : ℤ) : ℚ) * 2 ^ ulpExponent ((m : ℚ) * 2 ^ e) = (m : ℚ) * 2 ^ e := by
    rw [← hdiv]
    exact div_mul_cancel₀ _ (zpow_ne_zero _ (by norm_num))
  unfold roundToDouble
  rw [if_neg hq, hdiv, roundHalfEven_intCast, hback, if_pos hfin]

theorem isDouble_intCast (n : ℤ) (hn : |n| < 2 ^ 53) : IsDouble (n : ℚ) := by
  have h := roundToDouble_double n 0 hn (by norm_num) (by
    rw [zpow_zero, mul_one]
    have h1 : ((|n| : ℤ) : ℚ) < ((2 ^ 53 : ℤ) : ℚ) := by exact_mod_cast hn
    rw [Int.cast_abs] at h1
    refine lt_trans h1 ?_
    norm_num)
  rw [zpow_zero, mul_one] at h
  exact h

theorem isDouble_two_pow_53 : IsDouble 9007199254740992 := by
  have h := roundToDouble_double 4503599627370496 1 (by norm_num) (by norm_num) (by norm_num)
  norm_num at h
  exact h

theorem roundToDouble_two_pow_53_add_one :
    roundToDouble 9007199254740993 = some 9007199254740992 := by
  have hlog : Int.log 2 |(9007199254740993 : ℚ)| = 53 := by
    apply int_log_two_eq
    · norm_num
    · norm_num
    · norm_num
  have hulp : ulpExponent 9007199254740993 = 1 := by
    unfold ulpExponent
    rw [hlog]
    norm_num
  have hfloor : ⌊(9007199254740993 : ℚ) / 2⌋ = 4503599627370496 := by
    rw [Int.floor_eq_iff]
    constructor <;> norm_num
  have hround : roundHalfEven ((9007199254740993 : ℚ) / 2 ^ (1 : ℤ)) = 4503599627370496 := by
    unfold roundHalfEven
    rw [zpow_one, hfloor]
    norm_num
  unfold roundToDouble
  rw [hulp, hround]
  norm_num

theorem exactBalance_cons (t : Transaction) (ts : List Transaction)
    (ht : t.type = "income" ∨ t.type = "expense") :
    exactBalance (t :: ts)
      = (if t.type = "income" then t.amount else -t.amount) + exactBalance ts := by
  unfold exactBalance
  rw [incomeTotal_cons, expenseTotal_cons]
  rcases ht with h | h
  · simp [h]; ring
  · simp [h]; ring

theorem totalBalance_eq_spec (transactions : List Transaction)
    (htype : ∀ t ∈ transactions, t.type = "income" ∨ t.type = "expense") :
    totalBalance transactions = balanceAsSpecified transactions := by
  unfold totalBalance balanceAsSpecified
  generalize (some (0 : ℚ)) = acc
  induction transactions generalizing acc with
  | nil => rfl
  | cons t ts ih =>
    rw [List.foldl_cons, List.foldl_cons]
    have hstep :
        (if (t.type == "income") = true then jsAdd acc (some t.amount)
          else jsSub acc (some t.amount))
        = (if t.type = "income" then jsAdd acc (some t.amount)
          else if t.type = "expense" then jsSub acc (some t.amount) else acc) := by
      rcases htype t (List.mem_cons_self _ _) with h | h
      · simp [h]
      · simp [h]
    rw [hstep]
    exact ih (fun u hu => htype u (List.mem_cons_of_mem _ hu)) _

theorem foldl_exact (transactions : List Transaction)
    (htype : ∀ t ∈ transactions, t.type = "income" ∨ t.type = "expense") :
    ∀ acc : ℚ, (∀ k, IsDouble (acc + exactBalance (transactions.take k))) →
      transactions.foldl
        (fun acc transaction =>
          if transaction.type == "income" then jsAdd acc (some transaction.amount)
          else jsSub acc (some transaction.amount))
        (some acc)
      = some (acc + exactBalance transactions) := by
  induction transactions with
  | nil =>
    intro acc _
    simp [exactBalance, incomeTotal, expenseTotal]
  | cons t ts ih =>
    intro acc hex
    have ht := htype t (List.mem_cons_self _ _)
    have hts : ∀ u ∈ ts, u.type = "income" ∨ u.type = "expense" :=
      fun u hu => htype u (List.mem_cons_of_mem _ hu)
    have hone := hex 1
    rw [List.take_succ_cons, List.take_zero, exactBalance_cons t [] ht] at hone
    have hnil : exactBalance [] = 0 := by simp [exactBalance, incomeTotal, expenseTotal]
    rw [hnil, add_zero] at hone
    have hrest : ∀ k, IsDouble
        ((acc + (if t.type = "income" then t.amount else -t.amount))
          + exactBalance (ts.take k)) := by
      intro k
      have := hex (k + 1)
      rw [List.take_succ_cons, exactBalance_cons t _ ht, ← add_assoc] at this
      exact this
    rw [List.foldl_cons, exactBalance_cons t ts ht, ← add_assoc]
    rcases ht with h | h
    · rw [if_pos h] at hone hrest ⊢
      have hstep : (if (t.type == "income") = true then jsAdd (some acc) (some t.amount)
          else jsSub (some acc) (some t.amount)) = some (acc + t.amount) := by
        simp only [h, beq_self_eq_true, if_true]
        exact hone
      rw [hstep]
      exact ih hts _ hrest
    · have hni : t.type ≠ "income" := by rw [h]; decide
      rw [if_neg hni] at hone hrest ⊢
      have hstep : (if (t.type == "income") = true then jsAdd (some acc) (some t.amount)
          else jsSub (some acc) (some t.amount)) = some (acc + -t.amount) := by
        have hb : (t.type == "income") = false := by simp [hni]
        simp only [hb]
        show roundToDouble (acc - t.amount) = some (acc + -t.amount)
        rw [sub_eq_add_neg]
        exact hone
      rw [hstep]
      exact ih hts _ hrest

theorem totalBalance_exact (transactions : List Transaction)
    (htype : ∀ t ∈ transactions, t.type = "income" ∨ t.type = "expense")
    (hexact : ∀ k, IsDouble (exactBalance (transactions.take k))) :
    totalBalance transactions = some (exactBalance transactions) := by
  have h := foldl_exact transactions htype 0 (by simpa using hexact)
  rw [zero_add] at h
  exact h

theorem seed_types : ∀ t ∈ initialTransactions, t.type = "income" ∨ t.type = "expense" := by
  simp [initialTransactions]

theorem seed_exact : ∀ k, IsDouble (exactBalance (initialTransactions.take k)) := by
  intro k
  rcases k with _ | _ | k
  · have h := isDouble_intCast 0 (by norm_num)
    simpa [exactBalance, incomeTotal, expenseTotal] using h
  · have h := isDouble_intCast 1000 (by norm_num)
    simpa [exactBalance, incomeTotal, expenseTotal, initialTransactions] using h
  · have h := isDouble_intCast 950 (by norm_num)
    have hv : exactBalance (initialTransactions.take (k + 1 + 1)) = 950 := by
      simp [exactBalance, incomeTotal, expenseTotal, initialTransactions]
      norm_num
    rw [hv]
    simpa using h

theorem totalBalance_seed : totalBalance initialTransactions = some 950 := by
  rw [totalBalance_exact initialTransactions seed_types seed_exact]
  simp [exactBalance, incomeTotal, expenseTotal, initialTransactions]
  norm_num

theorem createAsSpecified_of_nonneg (st : State) (f : FormFields)
    (hed : st.editingTransaction = none) (hids : ∀ t ∈ st.transactions, 0 ≤ t.id) :
    CreateAsSpecified st.transactions f (handleSubmit st f).transactions := by
  refine ⟨newTransaction st.transactions none f, handleSubmit_transactions_none st f hed,
    newTransaction_hasFields _ _ _, ?_, ?_⟩
  · intro hnil
    rw [hnil]
    rfl
  · rintro m ⟨⟨t, ht, htm⟩, hle⟩
    show mathMax (st.transactions.map (fun t => t.id)) 0 + 1 = m + 1
    have hm : 0 ≤ m := htm ▸ hids t ht
    have h1 : m ≤ mathMax (st.transactions.map (fun t => t.id)) 0 :=
      htm ▸ id_le_mathMax _ t ht
    have h2 : mathMax (st.transactions.map (fun t => t.id)) 0 ≤ m := by
      rcases mathMax_eq_base_or_mem (st.transactions.map (fun t => t.id)) 0 with h0 | hmem
      · rw [h0]; exact hm
      · obtain ⟨u, hu, hum⟩ := List.mem_map.mp hmem
        rw [← hum]
        exact hle u hu
    omega

theorem positiveIds_step (st : State) (ev : Event) (h : ∀ t ∈ st.transactions, 1 ≤ t.id) :
    ∀ t ∈ (step st ev).transactions, 1 ≤ t.id := by
  cases ev with
  | edit transaction => exact h
  | delete transactionId =>
    intro t ht
    have ht' : t ∈ (handleDelete st transactionId).transactions := ht
    rw [handleDelete_transactions] at ht'
    exact h t (List.mem_filter.mp ht').1
  | filterChange name value => exact h
  | submit formData =>
    intro t ht
    have ht' : t ∈ (handleSubmit st formData).transactions := ht
    cases hed : st.editingTransaction with
    | none =>
      rw [handleSubmit_transactions_none st formData hed] at ht'
      rcases List.mem_append.mp ht' with hold | hnew
      · exact h t hold
      · rw [List.mem_singleton] at hnew
        rw [hnew]
        have := mathMax_ge_base (st.transactions.map (fun t => t.id)) 0
        show 1 ≤ mathMax (st.transactions.map (fun t => t.id)) 0 + 1
        omega
    | some e =>
      rw [handleSubmit_transactions_some st e formData hed] at ht'
      obtain ⟨u, hu, hut⟩ := List.mem_map.mp ht'
      by_cases hue : u.id = e.id
      · rw [if_pos hue] at hut
        rw [← hut]
        show 1 ≤ e.id
        rw [← hue]
        exact h u hu
      · rw [if_neg hue] at hut
        rw [← hut]
        exact h u hu
  | close => exact h

theorem positiveIds_run (events : List Event) :
    ∀ t ∈ (run initialState events).transactions, 1 ≤ t.id := by
  have key : ∀ (evs : List Event) (st : State), (∀ t ∈ st.transactions, 1 ≤ t.id) →
      ∀ t ∈ (run st evs).transactions, 1 ≤ t.id := by
    intro evs
    induction evs with
    | nil => intro st h; exact h
    | cons ev rest ih =>
      intro st h
      show ∀ t ∈ (run (step st ev) rest).transactions, 1 ≤ t.id
      exact ih (step st ev) (positiveIds_step st ev h)
  apply key
  simp [initialState, initialTransactions]

theorem roundingExample_types :
    ∀ t ∈ roundingExample, t.type = "income" ∨ t.type = "expense" := by
  simp [roundingExample]

theorem totalBalance_roundingExample : totalBalance roundingExample = some 0 := by
  have e : totalBalance roundingExample
      = jsSub (jsAdd (jsAdd (some 0) (some 9007199254740992)) (some 1))
          (some 9007199254740992) := by
    unfold totalBalance roundingExample
    rw [List.foldl_cons, List.foldl_cons, List.foldl_cons, List.foldl_nil]
    simp only [beq_self_eq_true, if_true]
    have hb : ("expense" == "income") = false := by decide
    simp only [hb, Bool.false_eq_true, if_false]
  have s1 : jsAdd (some 0) (some 9007199254740992) = some 9007199254740992 := by
    show roundToDouble (0 + 9007199254740992) = some 9007199254740992
    rw [zero_add]
    exact isDouble_two_pow_53
  have s2 : jsAdd (some 9007199254740992) (some 1) = some 9007199254740992 := by
    show roundToDouble (9007199254740992 + 1) = some 9007199254740992
    rw [show (9007199254740992 : ℚ) + 1 = 9007199254740993 by norm_num]
    exact roundToDouble_two_pow_53_add_one
  have s3 : jsSub (some 9007199254740992) (some 9007199254740992) = some 0 := by
    show roundToDouble (9007199254740992 - 9007199254740992) = some 0
    rw [sub_self]
    exact roundToDouble_zero
  rw [e, s1, s2, s3]

theorem exactBalance_roundingExample :
    incomeTotal roundingExample - expenseTotal roundingExample = 1 := by
  simp [incomeTotal, expenseTotal, roundingExample]

/-! ## The claims -/

/-- C1. Id uniqueness is an invariant of the ledger: from the seeded state (ids 1 and 2), after
every finite sequence of handler invocations (create and update through `handleSubmit`, delete
through `handleDelete`, and the handlers that do not touch the collection), no two records of the
collection have the same id. -/
theorem ledger_ids_unique (events : List Event) :
    UniqueIds (run initialState events).transactions := by
  apply uniqueIds_run
  unfold UniqueIds
  simp [initialState, initialTransactions]

/-- C2. With no record being edited, on every collection whose ids are not negative, and so on
every collection the component can hold, `handleSubmit` returns the old collection, unchanged
and in the same order, followed by exactly one new record that carries the submitted fields and
whose id is one greater than the maximum id of the old collection, or `1` if the old collection
is empty. -/
theorem create_appends_max_plus_one (st : State) (f : FormFields)
    (hed : st.editingTransaction = none) (hids : ∀ t ∈ st.transactions, 0 ≤ t.id) :
    CreateAsSpecified st.transactions f (handleSubmit st f).transactions
    ∧ ∀ events : List Event, (run initialState events).editingTransaction = none →
        CreateAsSpecified (run initialState events).transactions f
          (handleSubmit (run initialState events) f).transactions :=
  ⟨createAsSpecified_of_nonneg st f hed hids,
   fun events hnone =>
     createAsSpecified_of_nonneg (run initialState events) f hnone
       (fun t ht => le_trans (by decide) (positiveIds_run events t ht))⟩

/-- Witness of `create_appends_max_plus_one`: the seeded state and the fields of the
specification's example. -/
theorem create_appends_max_plus_one_witness :
    CreateAsSpecified initialState.transactions
      { date := "2023-01-03", amount := 200, type := "income", category := "other" }
      (handleSubmit initialState
        { date := "2023-01-03", amount := 200, type := "income",
          category := "other" }).transactions :=
  (create_appends_max_plus_one initialState
    { date := "2023-01-03", amount := 200, type := "income", category := "other" }
    rfl (by simp [initialState, initialTransactions])).1

/-- C3. In a collection with pairwise distinct ids holding a record with id `i` at position `p`,
`handleSubmit` while editing a record `e` with id `i` yields a collection of the same length,
whose record at position `p` has id `i` and exactly the submitted fields, and whose record at
every other position is the record that was there before. -/
theorem update_replaces_in_place (st : State) (e : Transaction) (f : FormFields) (p : Nat)
    (r : Transaction) (hed : st.editingTransaction = some e)
    (huniq : UniqueIds st.transactions) (hp : st.transactions[p]? = some r)
    (hid : r.id = e.id) :
    (handleSubmit st f).transactions.length = st.transactions.length
    ∧ (∃ r', (handleSubmit st f).transactions[p]? = some r' ∧ r'.id = e.id ∧ HasFields r' f)
    ∧ ∀ q, q ≠ p → (handleSubmit st f).transactions[q]? = st.transactions[q]? := by
  rw [handleSubmit_transactions_some st e f hed]
  refine ⟨List.length_map _ _, ?_, ?_⟩
  · refine ⟨newTransaction st.transactions (some e) f, ?_, rfl, newTransaction_hasFields _ _ _⟩
    rw [List.getElem?_map, hp]
    simp [hid]
  · intro q hq
    rw [List.getElem?_map]
    cases hq' : st.transactions[q]? with
    | none => rfl
    | some t =>
      have hne : t.id ≠ e.id := by
        obtain ⟨hpl, hpe⟩ := List.getElem?_eq_some.mp hp
        obtain ⟨hql, hqe⟩ := List.getElem?_eq_some.mp hq'
        have hpw := List.pairwise_iff_getElem.mp huniq
        rw [← hid, ← hpe, ← hqe]
        rcases Nat.lt_or_gt_of_ne hq with hlt | hgt
        · exact hpw q p hql hpl hlt
        · exact fun h => hpw p q hpl hql hgt h.symm
      simp [hne]

/-- Witness of `update_replaces_in_place`: the seeded collection, editing the record with id 2
at position 1. -/
theorem update_replaces_in_place_witness :
    (handleSubmit (handleEdit initialState (some
        { id := 2, date := "2023-01-02", amount := 50, type := "expense",
          category := "groceries" }))
      { date := "2023-02-01", amount := 75, type := "expense",
        category := "bills" }).transactions.length = initialTransactions.length
    ∧ (∃ r', (handleSubmit (handleEdit initialState (some
          { id := 2, date := "2023-01-02", amount := 50, type := "expense",
            category := "groceries" }))
        { date := "2023-02-01", amount := 75, type := "expense",
          category := "bills" }).transactions[1]? = some r' ∧ r'.id = 2
        ∧ HasFields r' { date := "2023-02-01", amount := 75, type := "expense",
                         category := "bills" })
    ∧ ∀ q, q ≠ 1 →
        (handleSubmit (handleEdit initialState (some
          { id := 2, date := "2023-01-02", amount := 50, type := "expense",
            category := "groceries" }))
        { date := "2023-02-01", amount := 75, type := "expense",
          category := "bills" }).transactions[q]? = initialTransactions[q]? :=
  update_replaces_in_place
    (handleEdit initialState (some
      { id := 2, date := "2023-01-02", amount := 50, type := "expense", category := "groceries" }))
    { id := 2, date := "2023-01-02", amount := 50, type := "expense", category := "groceries" }
    { date := "2023-02-01", amount := 75, type := "expense", category := "bills" }
    1
    { id := 2, date := "2023-01-02", amount := 50, type := "expense", category := "groceries" }
    rfl
    (by unfold UniqueIds; simp [handleEdit, onOpen, initialState, initialTransactions])
    rfl rfl

/-- C4, as stated, fails: on the seeded collection, which has no record with id 7,
`handleSubmit` while editing a record with id 7 does not fail. -/
theorem update_unknown_id_counterexample :
    (∀ t ∈ initialState.transactions, t.id ≠ 7)
    ∧ ¬ Failed (handleSubmit
        { initialState with
          editingTransaction := some
            { id := 7, date := "2023-01-05", amount := 20, type := "expense",
              category := "bills" } }
        { date := "2023-01-06", amount := 30, type := "expense", category := "other" }) := by
  refine ⟨?_, ?_⟩
  · simp [initialState, initialTransactions]
  · intro h
    exact h (handleSubmit_lastStatus _ _)

/-- C4, amended. For every collection and every id that no record of it has, `handleSubmit`
while editing a record with that id does not fail: it leaves the collection exactly as it was
and acknowledges with the success notification "Transaction updated.". -/
theorem update_unknown_id_is_silent (st : State) (e : Transaction) (f : FormFields)
    (hed : st.editingTransaction = some e) (habs : ∀ t ∈ st.transactions, t.id ≠ e.id) :
    (handleSubmit st f).transactions = st.transactions
    ∧ ¬ Failed (handleSubmit st f)
    ∧ (handleSubmit st f).toasts.getLast?
        = some { title := "Transaction updated.", status := "success", duration := 2000,
                 isClosable := true } := by
  refine ⟨?_, fun h => h (handleSubmit_lastStatus _ _), ?_⟩
  · rw [handleSubmit_transactions_some st e f hed]
    conv_rhs => rw [← List.map_id st.transactions]
    apply List.map_congr_left
    intro t ht
    simp [habs t ht]
  · simp [handleSubmit, toast, hed]

/-- Witness of `update_unknown_id_is_silent`: the seeded collection, editing a record with the
absent id 7. -/
theorem update_unknown_id_is_silent_witness :
    (handleSubmit
        { initialState with
          editingTransaction := some
            { id := 7, date := "2023-01-05", amount := 20, type := "expense",
              category := "bills" } }
        { date := "2023-01-06", amount := 30, type := "expense",
          category := "other" }).transactions = initialTransactions
    ∧ ¬ Failed (handleSubmit
        { initialState with
          editingTransaction := some
            { id := 7, date := "2023-01-05", amount := 20, type := "expense",
              category := "bills" } }
        { date := "2023-01-06", amount := 30, type := "expense", category := "other" })
    ∧ (handleSubmit
        { initialState with
          editingTransaction := some
            { id := 7, date := "2023-01-05", amount := 20, type := "expense",
              category := "bills" } }
        { date := "2023-01-06", amount := 30, type := "expense",
          category := "other" }).toasts.getLast?
        = some { title := "Transaction updated.", status := "success", duration := 2000,
                 isClosable := true } :=
  update_unknown_id_is_silent
    { initialState with
      editingTransaction := some
        { id := 7, date := "2023-01-05", amount := 20, type := "expense", category := "bills" } }
    { id := 7, date := "2023-01-05", amount := 20, type := "expense", category := "bills" }
    { date := "2023-01-06", amount := 30, type := "expense", category := "other" }
    rfl
    (by simp [initialState, initialTransactions])

/-- C5, as stated, fails: on the seeded collection, create with amount `-5` does not fail, and
the collection after the call differs from the collection before it. -/
theorem create_negative_amount_counterexample :
    ¬ Failed (handleSubmit initialState
        { date := "2023-01-03", amount := -5, type := "expense", category := "other" })
    ∧ (handleSubmit initialState
        { date := "2023-01-03", amount := -5, type := "expense",
          category := "other" }).transactions ≠ initialState.transactions := by
  refine ⟨fun h => h (handleSubmit_lastStatus _ _), ?_⟩
  rw [handleSubmit_transactions_none _ _ rfl]
  intro h
  have hlen := congrArg List.length h
  simp at hlen

/-- C5, amended. For every collection and every field set whose amount is negative,
`handleSubmit` with no record being edited does not fail: the collection after the call is the
collection before it followed by one new record that carries the submitted fields, the negative
amount included. -/
theorem create_negative_amount_accepted (st : State) (f : FormFields)
    (hed : st.editingTransaction = none) (hneg : f.amount < 0) :
    ¬ Failed (handleSubmit st f)
    ∧ ∃ r, (handleSubmit st f).transactions = st.transactions ++ [r] ∧ HasFields r f
        ∧ r.amount < 0 :=
  ⟨fun h => h (handleSubmit_lastStatus _ _),
   newTransaction st.transactions none f, handleSubmit_transactions_none st f hed,
   newTransaction_hasFields _ _ _, hneg⟩

/-- Witness of `create_negative_amount_accepted`: the seeded state and amount `-5`. -/
theorem create_negative_amount_accepted_witness :
    ¬ Failed (handleSubmit initialState
        { date := "2023-01-03", amount := -5, type := "expense", category := "other" })
    ∧ ∃ r, (handleSubmit initialState
              { date := "2023-01-03", amount := -5, type := "expense",
                category := "other" }).transactions = initialState.transactions ++ [r]
        ∧ HasFields r { date := "2023-01-03", amount := -5, type := "expense", category := "other" }
        ∧ r.amount < 0 :=
  create_negative_amount_accepted initialState
    { date := "2023-01-03", amount := -5, type := "expense", category := "other" }
    rfl (by norm_num)

/-- C6. For every state and every id, the collection `handleDelete` produces holds no record with
that id, and a second `handleDelete` with the same id returns that collection unchanged, again
without failing. -/
theorem delete_removes_and_is_idempotent (st : State) (i : Int) :
    (∀ t ∈ (handleDelete st i).transactions, t.id ≠ i)
    ∧ (handleDelete (handleDelete st i) i).transactions = (handleDelete st i).transactions
    ∧ ¬ Failed (handleDelete (handleDelete st i) i) := by
  refine ⟨?_, ?_, fun h => h (handleDelete_lastStatus _ _)⟩
  · intro t ht
    rw [handleDelete_transactions, List.mem_filter] at ht
    simpa using ht.2
  · rw [handleDelete_transactions (handleDelete st i) i, handleDelete_transactions st i,
      List.filter_filter]
    simp

/-- C10. Id reuse. With no record being edited, `handleSubmit` appends a record under a new id;
`handleDelete` with that id returns exactly the collection from before the create, and a
following `handleSubmit` with the same fields produces the same collection as the first one, so
it assigns the same id again.  On the seeded collection that id is 3, both times. -/
theorem create_delete_create_reuses_id (st : State) (f : FormFields)
    (hed : st.editingTransaction = none) :
    (handleSubmit st f).transactions
        = st.transactions ++ [newTransaction st.transactions none f]
    ∧ (handleDelete (handleSubmit st f) (newTransaction st.transactions none f).id).transactions
        = st.transactions
    ∧ (handleSubmit
        (handleDelete (handleSubmit st f) (newTransaction st.transactions none f).id)
        f).transactions = (handleSubmit st f).transactions
    ∧ (handleSubmit initialState f).transactions.getLast?.map (fun t => t.id) = some 3
    ∧ (handleDelete (handleSubmit initialState f) 3).transactions = initialTransactions
    ∧ (handleSubmit (handleDelete (handleSubmit initialState f) 3)
        f).transactions.getLast?.map (fun t => t.id) = some 3 := by
  have hdel : ∀ s : State, s.editingTransaction = none →
      (handleDelete (handleSubmit s f) (newTransaction s.transactions none f).id).transactions
        = s.transactions := by
    intro s hs
    rw [handleDelete_transactions, handleSubmit_transactions_none s f hs, List.filter_append,
      filter_ne_of_lt _ _ (fun t ht => id_lt_newId s.transactions f t ht)]
    simp
  have hagain : ∀ s : State, s.editingTransaction = none →
      (handleSubmit
        (handleDelete (handleSubmit s f) (newTransaction s.transactions none f).id)
        f).transactions = (handleSubmit s f).transactions := by
    intro s hs
    have hnone : (handleDelete (handleSubmit s f)
        (newTransaction s.transactions none f).id).editingTransaction = none := by
      rw [handleDelete_editingTransaction, handleSubmit_editingTransaction]
    rw [handleSubmit_transactions_none _ f hnone, hdel s hs,
      handleSubmit_transactions_none s f hs]
  have h3 : (newTransaction initialState.transactions none f).id = 3 :=
    newTransaction_seed_id f
  have hseed : (handleSubmit initialState f).transactions
      = initialTransactions ++ [newTransaction initialTransactions none f] :=
    handleSubmit_transactions_none initialState f rfl
  refine ⟨handleSubmit_transactions_none st f hed, hdel st hed, hagain st hed, ?_, ?_, ?_⟩
  · rw [hseed, List.getLast?_concat]
    exact congrArg some (newTransaction_seed_id f)
  · have := hdel initialState rfl
    rw [h3] at this
    exact this
  · have := hagain initialState rfl
    rw [h3] at this
    rw [this, hseed, List.getLast?_concat]
    exact congrArg some (newTransaction_seed_id f)

/-- Witness of `create_delete_create_reuses_id`: the seeded state and the fields of the
specification's example. -/
theorem create_delete_create_reuses_id_witness :
    (handleDelete
        (handleSubmit initialState
          { date := "2023-01-03", amount := 200, type := "income", category := "other" })
        3).transactions = initialTransactions
    ∧ (handleSubmit
        (handleDelete
          (handleSubmit initialState
            { date := "2023-01-03", amount := 200, type := "income", category := "other" })
          3)
        { date := "2023-01-03", amount := 200, type := "income",
          category := "other" }).transactions.getLast?.map (fun t => t.id) = some 3 :=
  ⟨(create_delete_create_reuses_id initialState
      { date := "2023-01-03", amount := 200, type := "income", category := "other" }
      rfl).2.2.2.2.1,
   (create_delete_create_reuses_id initialState
      { date := "2023-01-03", amount := 200, type := "income", category := "other" }
      rfl).2.2.2.2.2⟩

/-- C7. For every collection and every filter specification, `filteredTransactions` is a
subsequence of the collection in the same relative order, and a record of the collection appears
in it if and only if it satisfies every specified constraint at once (type, category, date on or
after `dateFrom`, date on or before `dateTo`); a record that satisfies them appears as often as
in the collection. -/
theorem filtered_is_stable_conjunctive (parseDate : String → Option Int)
    (transactions : List Transaction) (filters : Filters) :
    List.Sublist (filteredTransactions parseDate transactions filters) transactions
    ∧ (∀ t, t ∈ filteredTransactions parseDate transactions filters
          ↔ t ∈ transactions ∧ Satisfies parseDate filters t)
    ∧ (∀ t, Satisfies parseDate filters t →
          (filteredTransactions parseDate transactions filters).count t
            = transactions.count t) := by
  refine ⟨List.filter_sublist _, ?_, ?_⟩
  · intro t
    unfold filteredTransactions
    rw [List.mem_filter, filterPredicate_iff]
  · intro t ht
    unfold filteredTransactions
    exact List.count_filter ((filterPredicate_iff parseDate filters t).mpr ht)

/-- C8, as stated, fails: on the records income 9007199254740992, income 1, expense
9007199254740992 the balance the code computes is 0 (the sum 9007199254740993 is not a double
and rounds to 9007199254740992), while the sum of the income amounts minus the sum of the expense
amounts is 1. -/
theorem totalBalance_rounding_counterexample :
    (∀ t ∈ roundingExample, t.type = "income" ∨ t.type = "expense")
    ∧ totalBalance roundingExample = some 0
    ∧ incomeTotal roundingExample - expenseTotal roundingExample = 1
    ∧ totalBalance roundingExample
        ≠ some (incomeTotal roundingExample - expenseTotal roundingExample) := by
  refine ⟨roundingExample_types, totalBalance_roundingExample, exactBalance_roundingExample, ?_⟩
  rw [totalBalance_roundingExample, exactBalance_roundingExample]
  intro h
  exact absurd (Option.some.inj h) (by norm_num)

/-- C8, amended. For every list of records whose types are `income` or `expense`, `totalBalance`
equals the left fold from 0 that adds the amount of each income record and subtracts the amount
of each expense record in the program's double arithmetic, every step rounded to the nearest
double; it equals the sum of the income amounts minus the sum of the expense amounts when the
exact balance of every initial segment of the list is a double, so that no step rounds; on the
seeded collection it is 950. -/
theorem totalBalance_is_rounded_fold (transactions : List Transaction)
    (htype : ∀ t ∈ transactions, t.type = "income" ∨ t.type = "expense") :
    totalBalance transactions = balanceAsSpecified transactions
    ∧ ((∀ k, IsDouble (exactBalance (transactions.take k))) →
        totalBalance transactions
          = some (incomeTotal transactions - expenseTotal transactions))
    ∧ totalBalance initialTransactions = some 950 :=
  ⟨totalBalance_eq_spec transactions htype,
   fun hexact => totalBalance_exact transactions htype hexact,
   totalBalance_seed⟩

/-- Witness of `totalBalance_is_rounded_fold`: the seeded collection, whose exact balances 0,
1000 and 950 are doubles. -/
theorem totalBalance_is_rounded_fold_witness :
    (∀ t ∈ initialTransactions, t.type = "income" ∨ t.type = "expense")
    ∧ (∀ k, IsDouble (exactBalance (initialTransactions.take k)))
    ∧ totalBalance initialTransactions = balanceAsSpecified initialTransactions
    ∧ totalBalance initialTransactions
        = some (incomeTotal initialTransactions - expenseTotal initialTransactions)
    ∧ totalBalance initialTransactions = some 950 :=
  ⟨seed_types, seed_exact,
   (totalBalance_is_rounded_fold initialTransactions seed_types).1,
   (totalBalance_is_rounded_fold initialTransactions seed_types).2.1 seed_exact,
   (totalBalance_is_rounded_fold initialTransactions seed_types).2.2⟩

/-- C9. For every collection, `filteredTransactions` under the filter specification without
constraints (type, category, dateFrom and dateTo all empty) is exactly the collection: the same
records in the same order. -/
theorem filtered_without_constraints (parseDate : String → Option Int)
    (transactions : List Transaction) :
    filteredTransactions parseDate transactions noFilters = transactions
    ∧ filteredTransactions parseDate transactions initialState.filters = transactions := by
  have h : filteredTransactions parseDate transactions noFilters = transactions := by
    unfold filteredTransactions
    apply List.filter_eq_self.mpr
    intro t _
    simp [truthy, noFilters]
  exact ⟨h, h⟩

end FinanceTracker
